import Mathlib

/-!
Verification of the CFD server core (`backend/cfd_server.py`).

The Python source is shallowly embedded over exact rationals: every float
quantity of the source becomes a `ℚ`, machine division stays rational
division, and Python `int(...)` (truncation toward zero) is modelled
explicitly.  The wind-direction trigonometry of `_generate_case`
(`flow_x = -sin θ`, `flow_y = -cos θ`) is kept over `ℝ`; the sizing code
consumes the flow components as parameters, exactly as the source computes
them first and then only branches on their signs.  Output rounding
(`round(x, n)`) performed when serializing results to JSON is presentation
only and is not modelled.
-/

/-- Truncation toward zero on rationals, the semantics of Python `int(x)`
    applied to a real quantity. -/
def truncQ (q : ℚ) : ℤ := if q < 0 then ⌈q⌉ else ⌊q⌋

/-- One scattered cut-plane sample as consumed by the resampling loop of
    `_extract_results`: the dict `{x, y, speed, vx, vy}` built by `_parse_vtk`. -/
structure SamplePoint where
  x : ℚ
  y : ℚ
  speed : ℚ
  vx : ℚ
  vy : ℚ
deriving DecidableEq

/-- One entry of `building_list` in `_generate_case`: 2-D footprint plus height. -/
structure Building where
  coords : List (ℚ × ℚ)
  height : ℚ
deriving DecidableEq

/-- One GeoJSON feature of the request, reduced to the fields `_generate_case`
    inspects: `geometry.type`, the outer ring `geometry.coordinates[0]`
    (already projected to 2-D pairs, as the source keeps only `c[0], c[1]`),
    and the optional `properties.height`. -/
structure Feature where
  geomType : String
  ring : List (ℚ × ℚ)
  heightProp : Option ℚ
deriving DecidableEq

/-- The feature filter of `_generate_case` (lines 348-359): keep `Polygon`
    features whose outer ring has at least 3 coordinates; missing `height`
    defaults to 9. -/
def parse_buildings (features : List Feature) : List Building :=
  features.filterMap fun f =>
    if f.geomType = "Polygon" ∧ 3 ≤ f.ring.length then
      some ⟨f.ring, f.heightProp.getD 9⟩
    else
      none

/-- `max_height` of `_generate_case`: starts at 10 and folds `max` over the
    building heights. -/
def max_height (bl : List Building) : ℚ :=
  bl.foldl (fun m b => max m b.height) 10

/-- The `all_x` list of `_generate_case`: every x coordinate of every building. -/
def allX (bl : List Building) : List ℚ :=
  bl.flatMap fun b => b.coords.map Prod.fst

/-- The `all_y` list of `_generate_case`. -/
def allY (bl : List Building) : List ℚ :=
  bl.flatMap fun b => b.coords.map Prod.snd

/-- Python `min(...)` over a list, with a junk value on the empty list (the
    source only evaluates it on nonempty lists). -/
def minListD : List ℚ → ℚ
  | [] => 0
  | x :: xs => xs.foldl min x

/-- Python `max(...)` over a list, with a junk value on the empty list. -/
def maxListD : List ℚ → ℚ
  | [] => 0
  | x :: xs => xs.foldl max x

/-- One step of the ray-casting loop of `point_in_poly` (lines 458-468):
    `e = ((xi, yi), (xj, yj))` is the edge from vertex `i` to its
    predecessor `j`, `acc` the running `inside` flag. -/
def pipToggle (px py : ℚ) (acc : Bool) (e : (ℚ × ℚ) × (ℚ × ℚ)) : Bool :=
  let xi := e.1.1
  let yi := e.1.2
  let xj := e.2.1
  let yj := e.2.2
  if (decide (py < yi) != decide (py < yj)) &&
     decide (px < (xj - xi) * (py - yi) / (yj - yi) + xi) then
    !acc
  else
    acc

/-- `point_in_poly` of `_generate_case`: even-odd ray casting.  Vertex `i` is
    paired with `j` where `j` starts at `n-1` and then trails `i` by one, so
    the partner list is `last :: dropLast`. -/
def pointInPoly (px py : ℚ) (poly : List (ℚ × ℚ)) : Bool :=
  match poly with
  | [] => false
  | p0 :: rest =>
    let pl := p0 :: rest
    (pl.zip (pl.getLast (List.cons_ne_nil p0 rest) :: pl.dropLast)).foldl
      (pipToggle px py) false

/-- The four COST-732 domain factors read from `settings` with the module
    defaults `INLET_FACTOR = 5`, `OUTLET_FACTOR = 8`, `LATERAL_FACTOR = 2.5`,
    `HEIGHT_FACTOR = 5`. -/
structure Factors where
  inletF : ℚ
  outletF : ℚ
  lateralF : ℚ
  heightF : ℚ
deriving DecidableEq

/-- Default factors used when `settings` omits them. -/
def defaultFactors : Factors := ⟨5, 8, 5 / 2, 5⟩

/-- The computed domain of `_generate_case`: extended bounds, vertical extent,
    and the snappyHexMesh `locationInMesh` seed point. -/
structure Domain where
  xMin : ℚ
  xMax : ℚ
  yMin : ℚ
  yMax : ℚ
  zMax : ℚ
  locX : ℚ
  locY : ℚ
  locZ : ℚ
deriving DecidableEq

/-- The domain-sizing core of `_generate_case` (lines 361-415 and 438-475).
    `fx, fy` are the flow components `flow_x = -sin θ`, `flow_y = -cos θ`
    computed by the source just before this block; the block itself only
    branches on their signs (`flow_x >= 0`, `flow_y >= 0`; Python evaluates
    `-0.0 >= 0` to `True`, matching `0 ≤ fx`).  Returns `none` exactly when
    the source raises `Exception("No buildings found")` (empty `all_x`). -/
def sizeDomain (bl : List Building) (fx fy : ℚ) (fac : Factors) : Option Domain :=
  if allX bl = [] then none
  else
    let bxmin := minListD (allX bl)
    let bxmax := maxListD (allX bl)
    let bymin := minListD (allY bl)
    let bymax := maxListD (allY bl)
    let bcx := (bxmin + bxmax) / 2
    let bcy := (bymin + bymax) / 2
    let H := max_height bl
    let inletDist := fac.inletF * H
    let outletDist := fac.outletF * H
    let lateralDist := fac.lateralF * H
    let x0 := if 0 ≤ fx then bxmin - inletDist else bxmin - outletDist
    let x1 := if 0 ≤ fx then bxmax + outletDist else bxmax + inletDist
    let y0 := if 0 ≤ fy then bymin - inletDist else bymin - outletDist
    let y1 := if 0 ≤ fy then bymax + outletDist else bymax + inletDist
    let xm := x0 - lateralDist
    let xM := x1 + lateralDist
    let ym := y0 - lateralDist
    let yM := y1 + lateralDist
    let zM := fac.heightF * H
    let locZ := H + 5
    let relocated := bl.any fun b => pointInPoly bcx bcy b.coords
    let locX := if relocated then xm + (xM - xm) / 10 else bcx
    let locY := if relocated then ym + (yM - ym) / 10 else bcy
    some ⟨xm, xM, ym, yM, zM, locX, locY, locZ⟩

/-- The flow vector of `_generate_case`: `rad = radians(direction)`,
    `flow_x = -sin rad`, `flow_y = -cos rad`. -/
noncomputable def flowOfDirection (θ : ℝ) : ℝ × ℝ :=
  (-Real.sin (θ * Real.pi / 180), -Real.cos (θ * Real.pi / 180))

/-- Bucket key of a coordinate in the spatial hash of `_extract_results`
    (line 1235/1248): Python `int(c / cell_size)`, truncation toward zero. -/
def bucketOf (c cellSize : ℚ) : ℤ := truncQ (c / cellSize)

/-- Contents of one bucket of `point_cells`: the input samples whose hash key
    equals `key`, in input order (defaultdict append preserves list order). -/
def cellPoints (points : List SamplePoint) (cellSize : ℚ) (key : ℤ × ℤ) :
    List SamplePoint :=
  points.filter fun p =>
    (bucketOf p.x cellSize == key.1) && (bucketOf p.y cellSize == key.2)

/-- The candidate samples scanned for one grid node: the 3×3 bucket
    neighborhood, in the loop order `dcx ∈ [-1,0,1]`, `dcy ∈ [-1,0,1]`. -/
def neighborPoints (points : List SamplePoint) (cellSize : ℚ) (cx cy : ℤ) :
    List SamplePoint :=
  ([-1, 0, 1] : List ℤ).flatMap fun dcx =>
    ([-1, 0, 1] : List ℤ).flatMap fun dcy =>
      cellPoints points cellSize (cx + dcx, cy + dcy)

/-- Squared distance from a grid node `(x, y)` to a sample, as computed at
    line 1255. -/
def distSq (x y : ℚ) (p : SamplePoint) : ℚ :=
  (p.x - x) ^ 2 + (p.y - y) ^ 2

/-- The running-best scan of lines 1250-1258: `best` is the current
    `(best_p, best_dist)`; a candidate replaces it only on a strictly smaller
    squared distance, so the first minimiser in scan order wins. -/
def findBestAux (x y : ℚ) (best : SamplePoint × ℚ) :
    List SamplePoint → SamplePoint × ℚ
  | [] => best
  | p :: rest =>
    let d := distSq x y p
    if d < best.2 then findBestAux x y (p, d) rest
    else findBestAux x y best rest

/-- The full best-candidate search: `best_dist` starts at infinity, so the
    first candidate always becomes the initial best; `none` iff there is no
    candidate at all. -/
def findBest (x y : ℚ) : List SamplePoint → Option (SamplePoint × ℚ)
  | [] => none
  | p :: rest => some (findBestAux x y (p, distSq x y p) rest)

/-- Acceptance bound of line 1259: `(spacing * 1.5) ** 2`. -/
def distBound (spacing : ℚ) : ℚ := (spacing * (3 / 2)) ^ 2

/-- The bucket neighborhood actually scanned for node `(x, y)`:
    `cell_size = spacing * 0.6` and the node's own bucket key. -/
def nodeNeighborhood (points : List SamplePoint) (spacing x y : ℚ) :
    List SamplePoint :=
  let cellSize := spacing * (3 / 5)
  neighborPoints points cellSize (bucketOf x cellSize) (bucketOf y cellSize)

/-- Value assigned to one grid node (lines 1246-1264): `(speed, vx, vy)` of
    the accepted best candidate, `(0, 0, 0)` when no candidate exists or the
    best squared distance is not strictly below `(spacing * 1.5) ** 2`. -/
def nodeValue (points : List SamplePoint) (spacing x y : ℚ) : ℚ × ℚ × ℚ :=
  match findBest x y (nodeNeighborhood points spacing x y) with
  | some (p, d) => if d < distBound spacing then (p.speed, p.vx, p.vy) else (0, 0, 0)
  | none => (0, 0, 0)

/-- The rows of the resampling double loop of lines 1242-1266: row `iy`
    holds the node values at `y = y_min + iy * spacing`, column `ix` at
    `x = x_min + ix * spacing`. -/
def gridRows (points : List SamplePoint) (xmin ymin spacing : ℚ)
    (nx ny : ℕ) : List (List (ℚ × ℚ × ℚ)) :=
  (List.range ny).map fun iy : ℕ =>
    (List.range nx).map fun ix : ℕ =>
      nodeValue points spacing (xmin + (ix : ℚ) * spacing)
        (ymin + (iy : ℚ) * spacing)

/-- The three grids the result carries: `values` (speed), `vx`, `vy`,
    projected from the rows exactly as lines 1260-1264 and 1277-1278 build
    `row`/`vec_row` and then `vx_grid`/`vy_grid`. -/
def resampleGrid (points : List SamplePoint) (xmin ymin spacing : ℚ)
    (nx ny : ℕ) : List (List ℚ) × List (List ℚ) × List (List ℚ) :=
  ((gridRows points xmin ymin spacing nx ny).map fun r => r.map fun v => v.1,
   (gridRows points xmin ymin spacing nx ny).map fun r => r.map fun v => v.2.1,
   (gridRows points xmin ymin spacing nx ny).map fun r => r.map fun v => v.2.2)

/-- The `all_speeds` list of line 1269: the flattened speed grid filtered by
    `v > 0.01`. -/
def filteredSpeeds (grid2d : List (List ℚ)) : List ℚ :=
  grid2d.flatten.filter fun v => (1 / 100 : ℚ) < v

/-- The statistics block of lines 1268-1298: `all_speeds` filters the speed
    grid by `v > 0.01`; min/max fall back to `(0, speed)` on an empty filter;
    the reported `points` count is `len(points)`, the raw parsed samples. -/
def resultStats (speed : ℚ) (grid2d : List (List ℚ)) (points : List SamplePoint) :
    ℚ × ℚ × ℕ :=
  match filteredSpeeds grid2d with
  | [] => (0, speed, points.length)
  | v :: vs => (vs.foldl min v, vs.foldl max v, points.length)

/-- Grid construction plus statistics, the pure core of `_extract_results`
    after the scatter has been parsed: first component the three grids,
    second component `(min_speed, max_speed, stats.points)`. -/
def extractResults (speed xmin ymin spacing : ℚ) (nx ny : ℕ)
    (points : List SamplePoint) :
    (List (List ℚ) × List (List ℚ) × List (List ℚ)) × (ℚ × ℚ × ℕ) :=
  let g := resampleGrid points xmin ymin spacing nx ny
  (g, resultStats speed g.1 points)

/-- The CFD sub-progress computed by `get_status` (lines 75-77) from a parsed
    iteration count:
    `min(45 + int((iteration / total) * 45), 89)`.  The quotient is
    nonnegative, so Python `int` is the floor. -/
def cfdProgress (iteration total : ℕ) : ℕ :=
  min (45 + ⌊(iteration : ℚ) / (total : ℚ) * 45⌋₊) 89

/-- The mutable `self.status` record: state string, progress percent, message. -/
structure RunStatus where
  state : String
  progress : ℕ
  message : String
deriving DecidableEq

/-- Validation stage of `_generate_case`: parse the features, then size the
    domain; the `if not all_x` guard becomes the error
    `"No buildings found"`.  All file writes of the source happen strictly
    after this guard. -/
def generateCase (features : List Feature) (fx fy : ℚ) (fac : Factors) :
    Except String Domain :=
  match sizeDomain (parse_buildings features) fx fy fac with
  | none => Except.error "No buildings found"
  | some d => Except.ok d

/-- Files `_generate_case` writes into the case directory, in source order;
    none is written when the validation guard fires (the directories created
    by the initial `os.makedirs` calls stay empty). -/
def caseArtifacts (features : List Feature) (fx fy : ℚ) (fac : Factors) :
    List String :=
  match generateCase features fx fy fac with
  | Except.error _ => []
  | Except.ok _ =>
    ["metadata.json", "constant/triSurface/buildings.stl",
     "system/blockMeshDict", "system/snappyHexMeshDict", "0/U", "0/p", "0/k",
     "0/epsilon", "0/nut", "system/controlDict", "system/fvSchemes",
     "system/fvSolution", "system/decomposeParDict",
     "constant/transportProperties", "constant/turbulenceProperties"]

/-- Status outcome of the generation stage of `_run_calculation`: the
    `except` handler (lines 328-333) records any exception as
    `{"status": "error", "progress": 0, "message": str(e)}`; on success the
    task proceeds to the `blockMesh` stage at progress 20. -/
def runCalculationStatus (features : List Feature) (fx fy : ℚ) (fac : Factors) :
    RunStatus :=
  match generateCase features fx fy fac with
  | Except.error msg => ⟨"error", 0, msg⟩
  | Except.ok _ => ⟨"running", 20, "blockMesh..."⟩

/-- One STL facet of `_write_stl`.  The source writes wall normals as
    `(dy/L, -dx/L, 0)` with `L` the (real, generally irrational) edge length;
    since `L > 0` for every emitted wall facet, we store the positive
    multiple `(dy, -dx, 0)`, which is zero or horizontal exactly when the
    written normal is.  Cap normals `(0, 0, ±1)` are stored exactly. -/
structure Tri where
  normal : ℚ × ℚ × ℚ
  vA : ℚ × ℚ × ℚ
  vB : ℚ × ℚ × ℚ
  vC : ℚ × ℚ × ℚ
deriving DecidableEq

/-- Ring closing of `_write_stl` (lines 1059-1061): append the first vertex
    when the ring is not already closed. -/
def closeRing (coords : List (ℚ × ℚ)) : List (ℚ × ℚ) :=
  match coords with
  | [] => []
  | c :: rest =>
    if (c :: rest).getLast (List.cons_ne_nil c rest) ≠ c then
      coords ++ [c]
    else
      coords

/-- Consecutive vertex pairs of the closed ring: the edges
    `coords[i], coords[i+1]` for `i < len(coords) - 1`. -/
def edgePairs (cs : List (ℚ × ℚ)) : List ((ℚ × ℚ) × (ℚ × ℚ)) :=
  cs.zip cs.tail

/-- Wall facets of one building (lines 1063-1084): two triangles per edge,
    edges with `length < 0.001` skipped (`length` is the Euclidean length, so
    the test is `dx² + dy² < 0.001²`). -/
def wallTris (h : ℚ) (cs : List (ℚ × ℚ)) : List Tri :=
  (edgePairs cs).flatMap fun e =>
    let x0 := e.1.1
    let y0 := e.1.2
    let x1 := e.2.1
    let y1 := e.2.2
    let dx := x1 - x0
    let dy := y1 - y0
    if dx ^ 2 + dy ^ 2 < (1 / 1000) ^ 2 then []
    else
      [⟨(dy, -dx, 0), (x0, y0, 0), (x1, y1, 0), (x1, y1, h)⟩,
       ⟨(dy, -dx, 0), (x0, y0, 0), (x1, y1, h), (x0, y0, h)⟩]

/-- Roof and floor fans of one building (lines 1085-1104): only emitted when
    the closed ring has at least 4 entries; centroid over `coords[:-1]`; one
    roof and one floor triangle per edge, degenerate edges not skipped. -/
def capTris (h : ℚ) (cs : List (ℚ × ℚ)) : List Tri :=
  if 4 ≤ cs.length then
    let base := cs.dropLast
    let cX := (base.map Prod.fst).sum / ((cs.length : ℚ) - 1)
    let cY := (base.map Prod.snd).sum / ((cs.length : ℚ) - 1)
    (edgePairs cs).flatMap fun e =>
      let x0 := e.1.1
      let y0 := e.1.2
      let x1 := e.2.1
      let y1 := e.2.2
      [⟨(0, 0, 1), (cX, cY, h), (x0, y0, h), (x1, y1, h)⟩,
       ⟨(0, 0, -1), (cX, cY, 0), (x1, y1, 0), (x0, y0, 0)⟩]
  else []

/-- All facets of one building: walls first, then the caps, as emitted. -/
def buildingTris (b : Building) : List Tri :=
  let cs := closeRing b.coords
  wallTris b.height cs ++ capTris b.height cs

/-- `_write_stl`: the facets of every building, in building order. -/
def write_stl (buildings : List Building) : List Tri :=
  buildings.flatMap buildingTris

/-- One output record of `_parse_vtk` (lines 1364-1375), with the speed kept
    as the exact Euclidean norm (the source stores the float square root,
    rounded for JSON output). -/
structure VtkPoint where
  x : ℚ
  y : ℚ
  speed : ℝ
  vx : ℚ
  vy : ℚ

instance : Inhabited VtkPoint := ⟨⟨0, 0, 0, 0, 0⟩⟩

/-- Pairing loop of `_parse_vtk` (lines 1364-1375): point `idx` is paired
    with velocity `idx` and kept only while `idx < len(velocities)`, which is
    exactly `zipWith`; the z coordinate of the point is dropped and the
    z velocity enters only the speed magnitude. -/
noncomputable def mkPoints (coords vels : List (ℚ × ℚ × ℚ)) : List VtkPoint :=
  List.zipWith
    (fun c v =>
      ⟨c.1, c.2.1,
       Real.sqrt ((v.1 : ℝ) ^ 2 + (v.2.1 : ℝ) ^ 2 + (v.2.2 : ℝ) ^ 2),
       v.1, v.2.1⟩)
    coords vels

/-! Helper lemmas. -/

/-- Folding `max` over building heights never drops below the start value. -/
theorem le_foldl_max_height (l : List Building) (m : ℚ) :
    m ≤ l.foldl (fun acc b => max acc b.height) m := by
  induction l generalizing m with
  | nil => simp
  | cons b bs ih =>
    simpa using le_trans (le_max_left m b.height) (ih (max m b.height))

/-- Dropping the features the parser skips does not change the parse. -/
theorem parse_buildings_filter (features : List Feature) :
    parse_buildings features =
      parse_buildings (features.filter fun f =>
        decide (f.geomType = "Polygon" ∧ 3 ≤ f.ring.length)) := by
  induction features with
  | nil => rfl
  | cons f fs ih =>
    by_cases h : f.geomType = "Polygon" ∧ 3 ≤ f.ring.length
    · simp [parse_buildings, List.filter_cons, h] at ih ⊢
      exact ih
    · simp [parse_buildings, List.filter_cons, h] at ih ⊢
      exact ih

/-- C9: the building parser of `_generate_case` silently skips every feature
    that is not a `Polygon` or whose outer ring has fewer than 3 coordinates
    (the parse of the request equals the parse of its usable features, so the
    skipped ones contribute nothing to the domain or the mesh), assigns the
    default height 9 to polygon features with no height property, and the
    sizing height `max_height` never drops below 10. -/
theorem c9_parse_skips_and_defaults (features : List Feature) :
    (parse_buildings features =
      parse_buildings (features.filter fun f =>
        decide (f.geomType = "Polygon" ∧ 3 ≤ f.ring.length))) ∧
    (∀ f ∈ features, f.geomType = "Polygon" → 3 ≤ f.ring.length →
      f.heightProp = none →
      (Building.mk f.ring 9) ∈ parse_buildings features) ∧
    10 ≤ max_height (parse_buildings features) := by
  refine ⟨parse_buildings_filter features, ?_, ?_⟩
  · intro f hf hg hr hh
    unfold parse_buildings
    rw [List.mem_filterMap]
    refine ⟨f, hf, ?_⟩
    rw [if_pos ⟨hg, hr⟩, hh]
    rfl
  · exact le_foldl_max_height _ _

/-- Witness for C9 on a concrete request: a height-less polygon parses to
    height 9 while a point feature is skipped. -/
theorem c9_witness :
    (Building.mk [((0 : ℚ), (0 : ℚ)), (1, 0), (0, 1)] 9) ∈
      parse_buildings
        [⟨"Polygon", [((0 : ℚ), (0 : ℚ)), (1, 0), (0, 1)], none⟩,
         ⟨"Point", [((0 : ℚ), (0 : ℚ))], some 5⟩] :=
  (c9_parse_skips_and_defaults _).2.1
    ⟨"Polygon", [((0 : ℚ), (0 : ℚ)), (1, 0), (0, 1)], none⟩
    (by simp) rfl (by decide) rfl

/-- C6: while a calculation is running, the CFD progress derived from a
    parsed iteration count `i > 0` equals
    `min(45 + floor((i / total) * 45), 89)` (with nonnegative arguments the
    Python `int` truncation is the floor, and the rational floor is natural
    division), so the reported progress stays strictly below 90 even when
    `i ≥ total`. -/
theorem c6_progress_capped (i total : ℕ) (hi : 0 < i) (ht : 0 < total) :
    cfdProgress i total = min (45 + i * 45 / total) 89 ∧
    cfdProgress i total < 90 := by
  constructor
  · unfold cfdProgress
    congr 2
    rw [div_mul_eq_mul_div]
    rw [show ((i : ℚ) * 45) = ((i * 45 : ℕ) : ℚ) by push_cast; ring]
    rw [Nat.floor_div_nat, Nat.floor_natCast]
  · exact lt_of_le_of_lt (min_le_right _ _) (by norm_num)

/-- Witness for C6 at the end of the iteration budget: the reported progress
    is 89, not 90. -/
theorem c6_witness :
    (0 < 400 ∧ cfdProgress 400 400 = min (45 + 400 * 45 / 400) 89) ∧
    cfdProgress 400 400 < 90 :=
  ⟨⟨by norm_num, (c6_progress_capped 400 400 (by norm_num) (by norm_num)).1⟩,
   (c6_progress_capped 400 400 (by norm_num) (by norm_num)).2⟩

/-- C7: a request with zero usable buildings makes `_generate_case` fail its
    validation guard with `"No buildings found"` before writing anything: no
    case file is generated and `_run_calculation` records the failure in the
    status record (error state carrying the message) instead of propagating
    it. -/
theorem c7_no_buildings (features : List Feature) (fx fy : ℚ) (fac : Factors)
    (h : parse_buildings features = []) :
    generateCase features fx fy fac = Except.error "No buildings found" ∧
    caseArtifacts features fx fy fac = [] ∧
    runCalculationStatus features fx fy fac =
      ⟨"error", 0, "No buildings found"⟩ := by
  have hg : generateCase features fx fy fac = Except.error "No buildings found" := by
    unfold generateCase sizeDomain
    rw [h]
    rfl
  exact ⟨hg, by simp [caseArtifacts, hg], by simp [runCalculationStatus, hg]⟩

/-- Witness for C7: a request whose only feature is a two-point line. -/
theorem c7_witness :
    generateCase [⟨"LineString", [((0 : ℚ), (0 : ℚ)), (1, 1)], none⟩] 0 (-1)
        defaultFactors = Except.error "No buildings found" ∧
    caseArtifacts [⟨"LineString", [((0 : ℚ), (0 : ℚ)), (1, 1)], none⟩] 0 (-1)
        defaultFactors = [] ∧
    runCalculationStatus [⟨"LineString", [((0 : ℚ), (0 : ℚ)), (1, 1)], none⟩] 0
        (-1) defaultFactors = ⟨"error", 0, "No buildings found"⟩ :=
  c7_no_buildings _ 0 (-1) defaultFactors (by decide)

/-- `getD` through `zipWith` at an index below both lengths. -/
theorem getD_zipWith {α β γ : Type} (f : α → β → γ) (l₁ : List α)
    (l₂ : List β) (i : ℕ) (d₁ : α) (d₂ : β) (d₃ : γ)
    (h : i < min l₁.length l₂.length) :
    (List.zipWith f l₁ l₂).getD i d₃ = f (l₁.getD i d₁) (l₂.getD i d₂) := by
  induction l₁ generalizing l₂ i with
  | nil => simp at h
  | cons a as ih =>
    cases l₂ with
    | nil => simp at h
    | cons b bs =>
      cases i with
      | zero => simp
      | succ n =>
        simp only [List.zipWith_cons_cons, List.getD_cons_succ]
        exact ih bs n (by simp at h ⊢; omega)

/-- C10: `_parse_vtk` pairs coordinate triple `i` with velocity triple `i`
    and stops at the shorter list, so the number of returned sample points is
    `min(#coords, #velocities)` and excess coordinates are silently dropped;
    each returned point keeps the paired x, y, vx, vy and its speed is the
    Euclidean norm of the paired 3-D velocity. -/
theorem c10_positional_pairing (coords vels : List (ℚ × ℚ × ℚ)) :
    (mkPoints coords vels).length = min coords.length vels.length ∧
    ∀ i, i < min coords.length vels.length →
      ((mkPoints coords vels).getD i default).x = (coords.getD i (0, 0, 0)).1 ∧
      ((mkPoints coords vels).getD i default).y = (coords.getD i (0, 0, 0)).2.1 ∧
      ((mkPoints coords vels).getD i default).vx = (vels.getD i (0, 0, 0)).1 ∧
      ((mkPoints coords vels).getD i default).vy = (vels.getD i (0, 0, 0)).2.1 ∧
      ((mkPoints coords vels).getD i default).speed =
        Real.sqrt (((vels.getD i (0, 0, 0)).1 : ℝ) ^ 2 +
          ((vels.getD i (0, 0, 0)).2.1 : ℝ) ^ 2 +
          ((vels.getD i (0, 0, 0)).2.2 : ℝ) ^ 2) := by
  constructor
  · simpa [mkPoints] using List.length_zipWith _ coords vels
  · intro i hi
    unfold mkPoints
    rw [getD_zipWith _ coords vels i (0, 0, 0) (0, 0, 0) default hi]
    exact ⟨rfl, rfl, rfl, rfl, rfl⟩

/-- Witness for C10: two coordinate triples but a single velocity triple
    yield a single point whose speed is the norm of that velocity. -/
theorem c10_witness :
    (mkPoints [((1 : ℚ), (2 : ℚ), (3 : ℚ)), ((9 : ℚ), (9 : ℚ), (9 : ℚ))]
        [((3 : ℚ), (4 : ℚ), (0 : ℚ))]).length = min 2 1 ∧
    ((mkPoints [((1 : ℚ), (2 : ℚ), (3 : ℚ)), ((9 : ℚ), (9 : ℚ), (9 : ℚ))]
        [((3 : ℚ), (4 : ℚ), (0 : ℚ))]).getD 0 default).speed =
      Real.sqrt ((((3 : ℚ) : ℝ)) ^ 2 + (((4 : ℚ) : ℝ)) ^ 2 +
        (((0 : ℚ) : ℝ)) ^ 2) :=
  ⟨(c10_positional_pairing _ _).1,
   ((c10_positional_pairing
      [((1 : ℚ), (2 : ℚ), (3 : ℚ)), ((9 : ℚ), (9 : ℚ), (9 : ℚ))]
      [((3 : ℚ), (4 : ℚ), (0 : ℚ))]).2 0 (by norm_num)).2.2.2.2⟩

/-- C1 counterexample: at wind direction 0° (flow vector exactly `(0, -1)`),
    a single 10×10 building of height 10 with the default factors gets a
    north margin of 75 = (5 + 2.5)·10, not inletFactor·10 = 50, and its west
    and east margins are 75 and 105, not lateralFactor·10 = 25: the source
    adds `lateral_dist` to all four sides and classifies the x axis
    (zero flow component) as inlet/outlet as well. -/
theorem c1_counterexample :
    flowOfDirection 0 = (0, -1) ∧
    (sizeDomain [⟨[(0, 0), (10, 0), (10, 10), (0, 10), (0, 0)], 10⟩] 0 (-1)
        defaultFactors).map
      (fun d => (d.yMax - 10, 0 - d.xMin, d.xMax - 10)) = some (75, 75, 105) ∧
    ¬ ((75 : ℚ) = 5 * 10 ∧ (75 : ℚ) = (5 / 2) * 10 ∧ (105 : ℚ) = (5 / 2) * 10) := by
  refine ⟨?_, ?_, by norm_num⟩
  · unfold flowOfDirection
    norm_num
  · norm_num [sizeDomain, allX, allY, minListD, maxListD, max_height,
      defaultFactors, pointInPoly, pipToggle]
    exact ⟨_, ⟨by simp, rfl⟩, by norm_num, by norm_num, by norm_num⟩

/-- C1 as the code implements it: the flow vector at direction 0° is
    `(0, -1)`; for that direction a single height-10 building gets margins
    `(inletFactor + lateralFactor)·10` on the north and west sides,
    `(outletFactor + lateralFactor)·10` on the south and east sides, and
    vertical extent `heightFactor·10`; in general each axis of the bounding
    box is extended by `inletFactor·H` on the upwind side and `outletFactor·H`
    on the downwind side (a zero flow component counts as flowing toward the
    positive axis), and `lateralFactor·H` is then added on all four sides,
    not only on the lateral ones. -/
theorem c1_domain_margins :
    flowOfDirection 0 = (0, -1) ∧
    (∀ fac : Factors,
      (sizeDomain [⟨[(0, 0), (10, 0), (10, 10), (0, 10), (0, 0)], 10⟩] 0 (-1)
          fac).map
        (fun d => (d.xMin, d.xMax, d.yMin, d.yMax, d.zMax)) =
      some (0 - (fac.inletF + fac.lateralF) * 10,
            10 + (fac.outletF + fac.lateralF) * 10,
            0 - (fac.outletF + fac.lateralF) * 10,
            10 + (fac.inletF + fac.lateralF) * 10,
            fac.heightF * 10)) ∧
    (∀ (bl : List Building) (fx fy : ℚ) (fac : Factors) (d : Domain),
      sizeDomain bl fx fy fac = some d →
      d.xMin = minListD (allX bl) -
        (if 0 ≤ fx then fac.inletF else fac.outletF) * max_height bl -
        fac.lateralF * max_height bl ∧
      d.xMax = maxListD (allX bl) +
        (if 0 ≤ fx then fac.outletF else fac.inletF) * max_height bl +
        fac.lateralF * max_height bl ∧
      d.yMin = minListD (allY bl) -
        (if 0 ≤ fy then fac.inletF else fac.outletF) * max_height bl -
        fac.lateralF * max_height bl ∧
      d.yMax = maxListD (allY bl) +
        (if 0 ≤ fy then fac.outletF else fac.inletF) * max_height bl +
        fac.lateralF * max_height bl ∧
      d.zMax = fac.heightF * max_height bl) := by
  refine ⟨?_, ?_, ?_⟩
  · unfold flowOfDirection
    norm_num
  · intro fac
    norm_num [sizeDomain, allX, allY, minListD, maxListD, max_height,
      pointInPoly, pipToggle]
    refine ⟨_, ⟨by simp, rfl⟩, ?_, ?_, ?_, ?_, ?_⟩ <;> ring
  · intro bl fx fy fac d h
    unfold sizeDomain at h
    by_cases hx : allX bl = []
    · rw [if_pos hx] at h
      exact absurd h (by simp)
    · rw [if_neg hx] at h
      simp only [Option.some_inj] at h
      subst h
      refine ⟨?_, ?_, ?_, ?_, rfl⟩ <;> split_ifs <;> ring

/-- Witness for C1: the margin rule instantiated at the direction-0 scenario
    building with the default factors, plus the general rule applied to the
    concrete domain it computes. -/
theorem c1_witness :
    (sizeDomain [⟨[(0, 0), (10, 0), (10, 10), (0, 10), (0, 0)], 10⟩] 0 (-1)
        defaultFactors).map
      (fun d => (d.xMin, d.xMax, d.yMin, d.yMax, d.zMax)) =
      some (0 - (defaultFactors.inletF + defaultFactors.lateralF) * 10,
            10 + (defaultFactors.outletF + defaultFactors.lateralF) * 10,
            0 - (defaultFactors.outletF + defaultFactors.lateralF) * 10,
            10 + (defaultFactors.inletF + defaultFactors.lateralF) * 10,
            defaultFactors.heightF * 10) ∧
    (Domain.mk (-75) 115 (-105) 85 50 (-56) (-86) 15).zMax =
      defaultFactors.heightF *
        max_height [⟨[(0, 0), (10, 0), (10, 10), (0, 10), (0, 0)], 10⟩] :=
  ⟨c1_domain_margins.2.1 defaultFactors,
   (c1_domain_margins.2.2 [⟨[(0, 0), (10, 0), (10, 10), (0, 10), (0, 0)], 10⟩]
      0 (-1) defaultFactors (Domain.mk (-75) 115 (-105) 85 50 (-56) (-86) 15)
      (by
        norm_num [sizeDomain, allX, allY, minListD, maxListD, max_height,
          defaultFactors, pointInPoly, pipToggle]
        simp)).2.2.2.2⟩

/-- C2 counterexample: a single 1000×1000 building of height 10 at direction
    0° with default factors.  The centroid (500, 500) is inside the
    footprint, so the seed is relocated to the 10% interior offset (43, 13)
    of the extended domain — which is never re-checked and still lies inside
    the footprint. -/
theorem c2_counterexample :
    (sizeDomain [⟨[(0, 0), (1000, 0), (1000, 1000), (0, 1000), (0, 0)], 10⟩] 0
        (-1) defaultFactors).map
      (fun d => (d.locX, d.locY,
        pointInPoly d.locX d.locY
          [(0, 0), (1000, 0), (1000, 1000), (0, 1000), (0, 0)])) =
      some (43, 13, true) := by
  norm_num [sizeDomain, allX, allY, minListD, maxListD, max_height,
    defaultFactors, pointInPoly, pipToggle]
  exact ⟨_, ⟨by simp, rfl⟩, by norm_num, by norm_num, by norm_num⟩

/-- C2 as the code implements it: the seed starts at the bounding-box center
    raised above the tallest building; when no footprint contains that
    center, the seed stays there and is outside every footprint.  (When some
    footprint does contain the center the source moves the seed to the fixed
    10% offset of the domain without re-validating it, which can land inside
    a footprint.) -/
theorem c2_seed_outside (bl : List Building) (fx fy : ℚ) (fac : Factors)
    (d : Domain) (h : sizeDomain bl fx fy fac = some d)
    (hc : ∀ b ∈ bl,
      pointInPoly ((minListD (allX bl) + maxListD (allX bl)) / 2)
        ((minListD (allY bl) + maxListD (allY bl)) / 2) b.coords = false) :
    d.locX = (minListD (allX bl) + maxListD (allX bl)) / 2 ∧
    d.locY = (minListD (allY bl) + maxListD (allY bl)) / 2 ∧
    ∀ b ∈ bl, pointInPoly d.locX d.locY b.coords = false := by
  have hany : (bl.any fun b =>
      pointInPoly ((minListD (allX bl) + maxListD (allX bl)) / 2)
        ((minListD (allY bl) + maxListD (allY bl)) / 2) b.coords) = false := by
    rw [List.any_eq_false]
    intro b hb
    simp [hc b hb]
  unfold sizeDomain at h
  by_cases hx : allX bl = []
  · rw [if_pos hx] at h
    exact absurd h (by simp)
  · rw [if_neg hx] at h
    simp only [hany, Bool.false_eq_true, if_false, Option.some_inj] at h
    subst h
    exact ⟨rfl, rfl, hc⟩

/-- Witness for C2: two separated unit squares whose shared bounding-box
    center lies in neither footprint; the seed stays at the center and is
    outside both footprints. -/
theorem c2_witness :
    (Domain.mk (-75) 116 (-105) 76 50 (11 / 2) (1 / 2) 15).locX =
      (minListD (allX
          [⟨[(0, 0), (1, 0), (1, 1), (0, 1), (0, 0)], 10⟩,
           ⟨[(10, 0), (11, 0), (11, 1), (10, 1), (10, 0)], 10⟩]) +
        maxListD (allX
          [⟨[(0, 0), (1, 0), (1, 1), (0, 1), (0, 0)], 10⟩,
           ⟨[(10, 0), (11, 0), (11, 1), (10, 1), (10, 0)], 10⟩])) / 2 ∧
    pointInPoly (Domain.mk (-75) 116 (-105) 76 50 (11 / 2) (1 / 2) 15).locX
      (Domain.mk (-75) 116 (-105) 76 50 (11 / 2) (1 / 2) 15).locY
      [((0 : ℚ), (0 : ℚ)), (1, 0), (1, 1), (0, 1), (0, 0)] = false := by
  have h := c2_seed_outside
    [⟨[(0, 0), (1, 0), (1, 1), (0, 1), (0, 0)], 10⟩,
     ⟨[(10, 0), (11, 0), (11, 1), (10, 1), (10, 0)], 10⟩] 0 (-1) defaultFactors
    (Domain.mk (-75) 116 (-105) 76 50 (11 / 2) (1 / 2) 15)
    (by
      norm_num [sizeDomain, allX, allY, minListD, maxListD, max_height,
        defaultFactors, pointInPoly, pipToggle]
      simp)
    (by
      intro b hb
      rcases List.mem_cons.mp hb with h | h
      · subst h
        norm_num [allX, allY, minListD, maxListD, pointInPoly, pipToggle]
      · rcases List.mem_cons.mp h with h | h
        · subst h
          norm_num [allX, allY, minListD, maxListD, pointInPoly, pipToggle]
        · simp at h)
  exact ⟨h.1, h.2.2 ⟨[(0, 0), (1, 0), (1, 1), (0, 1), (0, 0)], 10⟩ (by simp)⟩

/-- The result of folding `min` is the start value or a list element. -/
theorem foldl_min_mem (vs : List ℚ) (v : ℚ) :
    vs.foldl min v = v ∨ vs.foldl min v ∈ vs := by
  induction vs generalizing v with
  | nil => exact Or.inl rfl
  | cons w ws ih =>
    simp only [List.foldl_cons]
    rcases ih (min v w) with h | h
    · rcases min_choice v w with hm | hm
      · exact Or.inl (h.trans hm)
      · exact Or.inr (List.mem_cons.mpr (Or.inl (h.trans hm)))
    · exact Or.inr (List.mem_cons.mpr (Or.inr h))

/-- Folding `min` bounds the start value and every list element from below. -/
theorem foldl_min_le (vs : List ℚ) (v : ℚ) :
    vs.foldl min v ≤ v ∧ ∀ w ∈ vs, vs.foldl min v ≤ w := by
  induction vs generalizing v with
  | nil => simp
  | cons u us ih =>
    simp only [List.foldl_cons]
    obtain ⟨h1, h2⟩ := ih (min v u)
    refine ⟨h1.trans (min_le_left v u), ?_⟩
    intro w hw
    rcases List.mem_cons.mp hw with h | h
    · exact h ▸ h1.trans (min_le_right v u)
    · exact h2 w h

/-- The result of folding `max` is the start value or a list element. -/
theorem foldl_max_mem (vs : List ℚ) (v : ℚ) :
    vs.foldl max v = v ∨ vs.foldl max v ∈ vs := by
  induction vs generalizing v with
  | nil => exact Or.inl rfl
  | cons w ws ih =>
    simp only [List.foldl_cons]
    rcases ih (max v w) with h | h
    · rcases max_choice v w with hm | hm
      · exact Or.inl (h.trans hm)
      · exact Or.inr (List.mem_cons.mpr (Or.inl (h.trans hm)))
    · exact Or.inr (List.mem_cons.mpr (Or.inr h))

/-- Folding `max` bounds the start value and every list element from above. -/
theorem foldl_max_ge (vs : List ℚ) (v : ℚ) :
    v ≤ vs.foldl max v ∧ ∀ w ∈ vs, w ≤ vs.foldl max v := by
  induction vs generalizing v with
  | nil => simp
  | cons u us ih =>
    simp only [List.foldl_cons]
    obtain ⟨h1, h2⟩ := ih (max v u)
    refine ⟨(le_max_left v u).trans h1, ?_⟩
    intro w hw
    rcases List.mem_cons.mp hw with h | h
    · exact h ▸ (le_max_right v u).trans h1
    · exact h2 w h

/-- Evaluation of the single-sample grid node at the origin. -/
theorem nodeValue_eval_origin :
    nodeValue [⟨0, 0, 3, 1, 0⟩] 5 0 0 = (3, 1, 0) := by
  norm_num [nodeValue, findBest, findBestAux, nodeNeighborhood, neighborPoints,
    cellPoints, bucketOf, truncQ, distSq, distBound]

/-- Evaluation of the single-sample grid node at (5, 0). -/
theorem nodeValue_eval_x5 :
    nodeValue [⟨0, 0, 3, 1, 0⟩] 5 5 0 = (3, 1, 0) := by
  norm_num [nodeValue, findBest, findBestAux, nodeNeighborhood, neighborPoints,
    cellPoints, bucketOf, truncQ, distSq, distBound]

/-- Evaluation of the single-sample grid node at (0, 5). -/
theorem nodeValue_eval_y5 :
    nodeValue [⟨0, 0, 3, 1, 0⟩] 5 0 5 = (3, 1, 0) := by
  norm_num [nodeValue, findBest, findBestAux, nodeNeighborhood, neighborPoints,
    cellPoints, bucketOf, truncQ, distSq, distBound]

/-- Evaluation of the single-sample grid node at (5, 5). -/
theorem nodeValue_eval_xy5 :
    nodeValue [⟨0, 0, 3, 1, 0⟩] 5 5 5 = (3, 1, 0) := by
  norm_num [nodeValue, findBest, findBestAux, nodeNeighborhood, neighborPoints,
    cellPoints, bucketOf, truncQ, distSq, distBound]

/-- C3 counterexample: one raw scatter point resampled onto a 2×2 grid gives
    4 resampled grid values (all nonzero), yet the reported `points` count is
    1, the raw scatter count — so the count statistic is not computed over
    the resampled grid values. -/
theorem c3_counterexample :
    (extractResults 4 0 0 5 2 2 [⟨0, 0, 3, 1, 0⟩]).2.2.2 = 1 ∧
    (extractResults 4 0 0 5 2 2 [⟨0, 0, 3, 1, 0⟩]).1.1.flatten.length = 4 ∧
    (filteredSpeeds (extractResults 4 0 0 5 2 2 [⟨0, 0, 3, 1, 0⟩]).1.1).length
      = 4 ∧
    (1 : ℕ) ≠ 4 := by
  have hgrid : (resampleGrid [⟨0, 0, 3, 1, 0⟩] 0 0 5 2 2).1 = [[3, 3], [3, 3]] := by
    norm_num [resampleGrid, gridRows, List.range_succ, nodeValue_eval_origin,
      nodeValue_eval_x5, nodeValue_eval_y5, nodeValue_eval_xy5]
  have hcount : (extractResults 4 0 0 5 2 2 [⟨0, 0, 3, 1, 0⟩]).2.2.2 = 1 := by
    show (resultStats 4 (resampleGrid [⟨0, 0, 3, 1, 0⟩] 0 0 5 2 2).1
      [⟨0, 0, 3, 1, 0⟩]).2.2 = 1
    rw [hgrid]
    norm_num [resultStats, filteredSpeeds]
  refine ⟨hcount, ?_, ?_, by norm_num⟩
  · show (resampleGrid [⟨0, 0, 3, 1, 0⟩] 0 0 5 2 2).1.flatten.length = 4
    rw [hgrid]
    norm_num
  · show (filteredSpeeds (resampleGrid [⟨0, 0, 3, 1, 0⟩] 0 0 5 2 2).1).length = 4
    rw [hgrid]
    norm_num [filteredSpeeds]

/-- C3 as the code implements it: the extraction statistics report
    `min_speed`/`max_speed` over the resampled grid values exceeding 0.01
    (falling back to `(0, wind speed)` when no grid value does), while the
    reported `points` count is the number of raw scattered samples, not a
    count of resampled grid values. -/
theorem c3_stats_basis (speed xmin ymin spacing : ℚ) (nx ny : ℕ)
    (points : List SamplePoint) :
    (extractResults speed xmin ymin spacing nx ny points).2.2.2 =
      points.length ∧
    (filteredSpeeds (resampleGrid points xmin ymin spacing nx ny).1 = [] →
      (extractResults speed xmin ymin spacing nx ny points).2.1 = 0 ∧
      (extractResults speed xmin ymin spacing nx ny points).2.2.1 = speed) ∧
    (filteredSpeeds (resampleGrid points xmin ymin spacing nx ny).1 ≠ [] →
      (extractResults speed xmin ymin spacing nx ny points).2.1 ∈
        filteredSpeeds (resampleGrid points xmin ymin spacing nx ny).1 ∧
      (extractResults speed xmin ymin spacing nx ny points).2.2.1 ∈
        filteredSpeeds (resampleGrid points xmin ymin spacing nx ny).1) ∧
    (∀ v ∈ filteredSpeeds (resampleGrid points xmin ymin spacing nx ny).1,
      (extractResults speed xmin ymin spacing nx ny points).2.1 ≤ v ∧
      v ≤ (extractResults speed xmin ymin spacing nx ny points).2.2.1) := by
  have hex : (extractResults speed xmin ymin spacing nx ny points).2 =
      resultStats speed (resampleGrid points xmin ymin spacing nx ny).1 points :=
    rfl
  rw [hex]
  rcases hfs : filteredSpeeds (resampleGrid points xmin ymin spacing nx ny).1
    with _ | ⟨v, vs⟩
  · refine ⟨?_, fun _ => ?_, fun hne => absurd rfl hne, fun w hw => ?_⟩
    · simp [resultStats, hfs]
    · constructor <;> simp [resultStats, hfs]
    · simp at hw
  · have hst : resultStats speed
        (resampleGrid points xmin ymin spacing nx ny).1 points =
        (vs.foldl min v, vs.foldl max v, points.length) := by
      simp [resultStats, hfs]
    rw [hst]
    refine ⟨rfl, fun hemp => absurd hemp (by simp), fun _ => ⟨?_, ?_⟩, ?_⟩
    · show List.foldl min v vs ∈ v :: vs
      rcases foldl_min_mem vs v with h | h
      · rw [h]
        exact List.mem_cons_self v vs
      · exact List.mem_cons_of_mem v h
    · show List.foldl max v vs ∈ v :: vs
      rcases foldl_max_mem vs v with h | h
      · rw [h]
        exact List.mem_cons_self v vs
      · exact List.mem_cons_of_mem v h
    · intro w hw
      show List.foldl min v vs ≤ w ∧ w ≤ List.foldl max v vs
      rcases List.mem_cons.mp hw with h | h
      · subst h
        exact ⟨(foldl_min_le vs w).1, (foldl_max_ge vs w).1⟩
      · exact ⟨(foldl_min_le vs v).2 w h, (foldl_max_ge vs v).2 w h⟩

/-- Witness for C3: the concrete one-sample extraction has raw count 1 and
    its min statistic is one of the grid values above 0.01. -/
theorem c3_witness :
    (extractResults 4 0 0 5 2 2 [⟨0, 0, 3, 1, 0⟩]).2.2.2 = 1 ∧
    (extractResults 4 0 0 5 2 2 [⟨0, 0, 3, 1, 0⟩]).2.1 ∈
      filteredSpeeds (resampleGrid [⟨0, 0, 3, 1, 0⟩] 0 0 5 2 2).1 :=
  ⟨(c3_stats_basis 4 0 0 5 2 2 [⟨0, 0, 3, 1, 0⟩]).1,
   ((c3_stats_basis 4 0 0 5 2 2 [⟨0, 0, 3, 1, 0⟩]).2.2.1 (by
      have hgrid : (resampleGrid [⟨0, 0, 3, 1, 0⟩] 0 0 5 2 2).1 =
          [[3, 3], [3, 3]] := by
        norm_num [resampleGrid, gridRows, List.range_succ, nodeValue_eval_origin,
          nodeValue_eval_x5, nodeValue_eval_y5, nodeValue_eval_xy5]
      rw [hgrid]
      norm_num [filteredSpeeds]
      simp)).1⟩

/-- Length of a `flatMap` whose function emits exactly two facets per edge. -/
theorem length_flatMap_two {α : Type} (l : List α) (f : α → List Tri)
    (h : ∀ e ∈ l, (f e).length = 2) : (l.flatMap f).length = 2 * l.length := by
  induction l with
  | nil => simp
  | cons e es ih =>
    simp only [List.flatMap_cons, List.length_append, List.length_cons]
    rw [h e (List.mem_cons_self e es),
      ih fun x hx => h x (List.mem_cons_of_mem e hx)]
    ring

/-- The closed ring has one edge fewer than vertices. -/
theorem edgePairs_length (cs : List (ℚ × ℚ)) :
    (edgePairs cs).length = cs.length - 1 := by
  simp only [edgePairs, List.length_zip, List.length_tail]
  omega

/-- Wall-facet count when no edge is degenerate. -/
theorem wallTris_length (h : ℚ) (cs : List (ℚ × ℚ))
    (hnd : ∀ e ∈ edgePairs cs,
      ¬ ((e.2.1 - e.1.1) ^ 2 + (e.2.2 - e.1.2) ^ 2 < (1 / 1000) ^ 2)) :
    (wallTris h cs).length = 2 * (cs.length - 1) := by
  unfold wallTris
  rw [length_flatMap_two, edgePairs_length]
  intro e he
  have hc := hnd e he
  simp only [if_neg hc, List.length_cons, List.length_nil]

/-- Cap-facet count when the closed ring has at least 4 entries. -/
theorem capTris_length (h : ℚ) (cs : List (ℚ × ℚ)) (h4 : 4 ≤ cs.length) :
    (capTris h cs).length = 2 * (cs.length - 1) := by
  unfold capTris
  rw [if_pos h4, length_flatMap_two, edgePairs_length]
  intro e he
  rfl

/-- C8 counterexample: the already-closed two-edge ring `[a, b, a]` (both
    edges longer than the epsilon) produces 4 facets, not 4 × 2 = 8, because
    the roof/floor fans need a closed ring of length at least 4. -/
theorem c8_counterexample :
    (write_stl [⟨[(0, 0), (1, 0), (0, 0)], 5⟩]).length = 4 ∧
    4 * ((closeRing [((0 : ℚ), (0 : ℚ)), (1, 0), (0, 0)]).length - 1) = 8 ∧
    (4 : ℕ) ≠ 8 := by
  refine ⟨?_, ?_, by norm_num⟩
  · norm_num [write_stl, buildingTris, closeRing, wallTris, capTris, edgePairs,
      List.getLast]
  · norm_num [closeRing, List.getLast]

/-- C8 as the code implements it: for buildings whose closed footprint ring
    has at least 4 entries (at least 3 edges) and no degenerate edge, the
    surface writer emits exactly `4 × E` facets per building (2 wall facets
    per edge plus roof and floor fans of E facets each), the total over a
    building set is the sum, and every wall facet (the facets with a zero
    vertical normal component) has a non-zero horizontal normal. -/
theorem c8_stl_count (bs : List Building)
    (h : ∀ b ∈ bs, 4 ≤ (closeRing b.coords).length ∧
      ∀ e ∈ edgePairs (closeRing b.coords),
        ¬ ((e.2.1 - e.1.1) ^ 2 + (e.2.2 - e.1.2) ^ 2 < (1 / 1000) ^ 2)) :
    (write_stl bs).length =
      (bs.map fun b => 4 * ((closeRing b.coords).length - 1)).sum ∧
    ∀ t ∈ write_stl bs, t.normal.2.2 = 0 →
      ¬ (t.normal.1 = 0 ∧ t.normal.2.1 = 0) := by
  constructor
  · induction bs with
    | nil => rfl
    | cons b rest ih =>
      simp only [write_stl, List.flatMap_cons, List.length_append,
        List.map_cons, List.sum_cons]
      obtain ⟨h4, hnd⟩ := h b (List.mem_cons_self b rest)
      have hb : (buildingTris b).length =
          4 * ((closeRing b.coords).length - 1) := by
        unfold buildingTris
        rw [List.length_append, wallTris_length _ _ hnd, capTris_length _ _ h4]
        omega
      have hrest := ih fun x hx => h x (List.mem_cons_of_mem b hx)
      simp only [write_stl] at hrest
      rw [hb, hrest]
  · intro t ht hz
    obtain ⟨b, hb, htb⟩ := List.mem_flatMap.mp ht
    unfold buildingTris at htb
    rcases List.mem_append.mp htb with hw | hc
    · unfold wallTris at hw
      obtain ⟨e, he, hte⟩ := List.mem_flatMap.mp hw
      by_cases hcond : (e.2.1 - e.1.1) ^ 2 + (e.2.2 - e.1.2) ^ 2 <
          (1 / 1000) ^ 2
      · simp only [if_pos hcond] at hte
        simp at hte
      · simp only [if_neg hcond, List.mem_cons, List.mem_singleton,
          List.not_mem_nil, or_false] at hte
        rintro ⟨h1, h2⟩
        apply hcond
        rcases hte with rfl | rfl <;>
        · dsimp only at h1 h2
          have ha : e.2.1 - e.1.1 = 0 := neg_eq_zero.mp h2
          rw [ha, h1]
          norm_num
    · unfold capTris at hc
      by_cases h4 : 4 ≤ (closeRing b.coords).length
      · rw [if_pos h4] at hc
        obtain ⟨e, he, hte⟩ := List.mem_flatMap.mp hc
        simp only [List.mem_cons, List.mem_singleton, List.not_mem_nil,
          or_false] at hte
        rcases hte with rfl | rfl
        · dsimp only at hz
          exact absurd hz one_ne_zero
        · dsimp only at hz
          norm_num at hz
      · rw [if_neg h4] at hc
        simp at hc

/-- Witness for C8: a closed unit square of height 7 emits
    4 × 4 = 16 facets. -/
theorem c8_witness :
    (write_stl [⟨[(0, 0), (1, 0), (1, 1), (0, 1), (0, 0)], 7⟩]).length =
      ([(⟨[(0, 0), (1, 0), (1, 1), (0, 1), (0, 0)], 7⟩ : Building)].map
        (fun b => 4 * ((closeRing b.coords).length - 1))).sum :=
  (c8_stl_count [⟨[(0, 0), (1, 0), (1, 1), (0, 1), (0, 0)], 7⟩] (by
    intro b hb
    rcases List.mem_cons.mp hb with h | h
    · subst h
      constructor
      · norm_num [closeRing, List.getLast]
      · intro e he
        norm_num [closeRing, List.getLast, edgePairs] at he
        rcases he with h | h | h | h <;> subst h <;> norm_num
    · simp at h)).1

/-- Invariant of the running-best scan: the result carries its own squared
    distance, comes from the start value or the scanned list, and its
    distance is a lower bound of the start distance and of every scanned
    candidate. -/
theorem findBestAux_spec (x y : ℚ) (l : List SamplePoint)
    (b : SamplePoint × ℚ) (hb : b.2 = distSq x y b.1) :
    (findBestAux x y b l).2 = distSq x y (findBestAux x y b l).1 ∧
    ((findBestAux x y b l).1 = b.1 ∨ (findBestAux x y b l).1 ∈ l) ∧
    (findBestAux x y b l).2 ≤ b.2 ∧
    ∀ p ∈ l, (findBestAux x y b l).2 ≤ distSq x y p := by
  induction l generalizing b with
  | nil => exact ⟨hb, Or.inl rfl, le_refl _, by simp⟩
  | cons p rest ih =>
    by_cases hd : distSq x y p < b.2
    · have heq : findBestAux x y b (p :: rest) =
          findBestAux x y (p, distSq x y p) rest := by
        simp only [findBestAux, if_pos hd]
      rw [heq]
      obtain ⟨h1, h2, h3, h4⟩ := ih (p, distSq x y p) rfl
      refine ⟨h1, ?_, h3.trans (le_of_lt hd), ?_⟩
      · rcases h2 with h | h
        · exact Or.inr (List.mem_cons.mpr (Or.inl h))
        · exact Or.inr (List.mem_cons.mpr (Or.inr h))
      · intro q hq
        rcases List.mem_cons.mp hq with h | h
        · rw [h]
          exact h3
        · exact h4 q h
    · have heq : findBestAux x y b (p :: rest) = findBestAux x y b rest := by
        simp only [findBestAux, if_neg hd]
      rw [heq]
      obtain ⟨h1, h2, h3, h4⟩ := ih b hb
      refine ⟨h1, ?_, h3, ?_⟩
      · rcases h2 with h | h
        · exact Or.inl h
        · exact Or.inr (List.mem_cons.mpr (Or.inr h))
      · intro q hq
        rcases List.mem_cons.mp hq with h | h
        · rw [h]
          exact h3.trans (le_of_not_lt hd)
        · exact h4 q h

/-- The best-candidate search on a nonempty list returns a member attaining
    the minimal squared distance. -/
theorem findBest_spec (x y : ℚ) (l : List SamplePoint) (hl : l ≠ []) :
    ∃ p, findBest x y l = some (p, distSq x y p) ∧ p ∈ l ∧
      ∀ q ∈ l, distSq x y p ≤ distSq x y q := by
  match l with
  | [] => exact absurd rfl hl
  | p0 :: rest =>
    obtain ⟨h1, h2, h3, h4⟩ := findBestAux_spec x y rest (p0, distSq x y p0) rfl
    refine ⟨(findBestAux x y (p0, distSq x y p0) rest).1, ?_, ?_, ?_⟩
    · show some (findBestAux x y (p0, distSq x y p0) rest) = _
      rw [← h1, Prod.mk.eta]
    · rcases h2 with h | h
      · rw [h]
        exact List.mem_cons_self p0 rest
      · exact List.mem_cons_of_mem p0 h
    · intro q hq
      rw [← h1]
      rcases List.mem_cons.mp hq with h | h
      · rw [h]
        exact h3
      · exact h4 q h

/-- The search returns `none` exactly on the empty candidate list. -/
theorem findBest_eq_none (x y : ℚ) (l : List SamplePoint) :
    findBest x y l = none ↔ l = [] := by
  cases l <;> simp [findBest]

/-- Every candidate of a node's bucket neighborhood is an input sample. -/
theorem mem_of_mem_nodeNeighborhood (points : List SamplePoint)
    (spacing x y : ℚ) (p : SamplePoint)
    (hp : p ∈ nodeNeighborhood points spacing x y) : p ∈ points := by
  unfold nodeNeighborhood neighborPoints at hp
  obtain ⟨a, _, hp⟩ := List.mem_flatMap.mp hp
  obtain ⟨c, _, hp⟩ := List.mem_flatMap.mp hp
  unfold cellPoints at hp
  exact (List.mem_filter.mp hp).1

/-- A sample sitting exactly on the node shares the node's bucket, hence is
    scanned (offset `(0, 0)` of the 3×3 neighborhood). -/
theorem self_mem_nodeNeighborhood (points : List SamplePoint)
    (spacing x y : ℚ) (p : SamplePoint) (hp : p ∈ points) (hx : p.x = x)
    (hy : p.y = y) : p ∈ nodeNeighborhood points spacing x y := by
  unfold nodeNeighborhood neighborPoints
  rw [List.mem_flatMap]
  refine ⟨0, by norm_num, ?_⟩
  rw [List.mem_flatMap]
  refine ⟨0, by norm_num, ?_⟩
  unfold cellPoints
  rw [List.mem_filter]
  refine ⟨hp, ?_⟩
  simp [hx, hy]

/-- Squared distances are nonnegative. -/
theorem distSq_nonneg (x y : ℚ) (p : SamplePoint) : 0 ≤ distSq x y p :=
  add_nonneg (sq_nonneg _) (sq_nonneg _)

/-- A zero squared distance pins the sample to the node. -/
theorem distSq_eq_zero (x y : ℚ) (p : SamplePoint) (h : distSq x y p = 0) :
    p.x = x ∧ p.y = y := by
  unfold distSq at h
  have h1 : (p.x - x) ^ 2 = 0 :=
    le_antisymm (by nlinarith [sq_nonneg (p.y - y)]) (sq_nonneg _)
  have h2 : (p.y - y) ^ 2 = 0 :=
    le_antisymm (by nlinarith [sq_nonneg (p.x - x)]) (sq_nonneg _)
  constructor
  · exact sub_eq_zero.mp ((pow_eq_zero_iff two_ne_zero).mp h1)
  · exact sub_eq_zero.mp ((pow_eq_zero_iff two_ne_zero).mp h2)

/-- Unfolding the node assignment through a successful search. -/
theorem nodeValue_of_findBest (points : List SamplePoint) (spacing x y : ℚ)
    (p : SamplePoint) (d : ℚ)
    (h : findBest x y (nodeNeighborhood points spacing x y) = some (p, d)) :
    nodeValue points spacing x y =
      if d < distBound spacing then (p.speed, p.vx, p.vy) else (0, 0, 0) := by
  unfold nodeValue
  rw [h]

/-- Unfolding the node assignment when there is no candidate. -/
theorem nodeValue_of_none (points : List SamplePoint) (spacing x y : ℚ)
    (h : findBest x y (nodeNeighborhood points spacing x y) = none) :
    nodeValue points spacing x y = (0, 0, 0) := by
  unfold nodeValue
  rw [h]

/-- C5: for every grid node the resampler assigns the values of the nearest
    sample found in the 3×3 bucket neighborhood of its spatial hash
    (bucket size 0.6×spacing) when that nearest sample is strictly within
    `(1.5×spacing)²` squared distance, and zero otherwise; in particular a
    sample located exactly at the node (its values shared by any co-located
    sample) resamples to that sample's values, and a node strictly farther
    than 1.5×spacing from every sample resamples to zero. -/
theorem c5_nearest_rule (points : List SamplePoint) (spacing x y : ℚ)
    (hs : 0 < spacing) :
    ((∃ p, p ∈ nodeNeighborhood points spacing x y ∧
        distSq x y p < distBound spacing) →
      ∃ p, p ∈ nodeNeighborhood points spacing x y ∧
        distSq x y p < distBound spacing ∧
        (∀ q ∈ nodeNeighborhood points spacing x y,
          distSq x y p ≤ distSq x y q) ∧
        nodeValue points spacing x y = (p.speed, p.vx, p.vy)) ∧
    ((∀ p ∈ nodeNeighborhood points spacing x y,
        ¬ distSq x y p < distBound spacing) →
      nodeValue points spacing x y = (0, 0, 0)) ∧
    (∀ p ∈ points, p.x = x → p.y = y →
      (∀ q ∈ points, q.x = x → q.y = y →
        q.speed = p.speed ∧ q.vx = p.vx ∧ q.vy = p.vy) →
      nodeValue points spacing x y = (p.speed, p.vx, p.vy)) ∧
    ((∀ p ∈ points, distBound spacing < distSq x y p) →
      nodeValue points spacing x y = (0, 0, 0)) := by
  refine ⟨?_, ?_, ?_, ?_⟩
  · rintro ⟨p0, hp0, hd0⟩
    have hne : nodeNeighborhood points spacing x y ≠ [] :=
      List.ne_nil_of_mem hp0
    obtain ⟨b, hbeq, hbmem, hbmin⟩ := findBest_spec x y _ hne
    have hbd : distSq x y b < distBound spacing :=
      lt_of_le_of_lt (hbmin p0 hp0) hd0
    exact ⟨b, hbmem, hbd, hbmin, by
      rw [nodeValue_of_findBest points spacing x y b _ hbeq, if_pos hbd]⟩
  · intro hfar
    by_cases hne : nodeNeighborhood points spacing x y = []
    · exact nodeValue_of_none points spacing x y
        ((findBest_eq_none x y _).mpr hne)
    · obtain ⟨b, hbeq, hbmem, hbmin⟩ := findBest_spec x y _ hne
      rw [nodeValue_of_findBest points spacing x y b _ hbeq,
        if_neg (hfar b hbmem)]
  · intro p hp hx hy hsame
    have hpn : p ∈ nodeNeighborhood points spacing x y :=
      self_mem_nodeNeighborhood points spacing x y p hp hx hy
    have hne : nodeNeighborhood points spacing x y ≠ [] :=
      List.ne_nil_of_mem hpn
    obtain ⟨b, hbeq, hbmem, hbmin⟩ := findBest_spec x y _ hne
    have hdp : distSq x y p = 0 := by
      unfold distSq
      rw [hx, hy]
      ring
    have hdb : distSq x y b = 0 :=
      le_antisymm (hdp ▸ hbmin p hpn) (distSq_nonneg x y b)
    obtain ⟨hbx, hby⟩ := distSq_eq_zero x y b hdb
    obtain ⟨hv1, hv2, hv3⟩ :=
      hsame b (mem_of_mem_nodeNeighborhood points spacing x y b hbmem) hbx hby
    have hpos : (0 : ℚ) < distBound spacing := by
      unfold distBound
      positivity
    rw [nodeValue_of_findBest points spacing x y b _ hbeq,
      if_pos (hdb ▸ hpos), hv1, hv2, hv3]
  · intro hfar
    by_cases hne : nodeNeighborhood points spacing x y = []
    · exact nodeValue_of_none points spacing x y
        ((findBest_eq_none x y _).mpr hne)
    · obtain ⟨b, hbeq, hbmem, hbmin⟩ := findBest_spec x y _ hne
      rw [nodeValue_of_findBest points spacing x y b _ hbeq,
        if_neg (not_lt.mpr (le_of_lt
          (hfar b (mem_of_mem_nodeNeighborhood points spacing x y b hbmem))))]

/-- Witness for C5: a single sample at the node (0, 0) resamples to its own
    values. -/
theorem c5_witness : nodeValue [⟨0, 0, 2, 1, 1⟩] 5 0 0 = (2, 1, 1) :=
  (c5_nearest_rule [⟨0, 0, 2, 1, 1⟩] 5 0 0 (by norm_num)).2.2.1
    ⟨0, 0, 2, 1, 1⟩ (by simp) rfl rfl
    (by
      intro q hq hqx hqy
      rw [List.mem_singleton.mp hq]
      exact ⟨rfl, rfl, rfl⟩)

/-- Permuting the input samples permutes every bucket neighborhood. -/
theorem nodeNeighborhood_perm (points₁ points₂ : List SamplePoint)
    (spacing x y : ℚ) (hperm : points₁.Perm points₂) :
    (nodeNeighborhood points₁ spacing x y).Perm
      (nodeNeighborhood points₂ spacing x y) := by
  unfold nodeNeighborhood neighborPoints
  refine List.Perm.flatMap_left _ fun a _ => ?_
  refine List.Perm.flatMap_left _ fun c _ => ?_
  unfold cellPoints
  exact hperm.filter _

/-- The per-node assignment is invariant under permutation of the samples
    provided samples at equal distance from the node within its scanned
    neighborhood carry equal values. -/
theorem nodeValue_perm (points₁ points₂ : List SamplePoint) (spacing x y : ℚ)
    (hperm : points₁.Perm points₂)
    (hties : ∀ p ∈ nodeNeighborhood points₁ spacing x y,
      ∀ q ∈ nodeNeighborhood points₁ spacing x y,
        distSq x y p = distSq x y q →
        p.speed = q.speed ∧ p.vx = q.vx ∧ p.vy = q.vy) :
    nodeValue points₁ spacing x y = nodeValue points₂ spacing x y := by
  have hn := nodeNeighborhood_perm points₁ points₂ spacing x y hperm
  by_cases hne : nodeNeighborhood points₁ spacing x y = []
  · have hne2 : nodeNeighborhood points₂ spacing x y = [] := by
      rw [hne] at hn
      exact hn.symm.eq_nil
    rw [nodeValue_of_none _ _ _ _ ((findBest_eq_none x y _).mpr hne),
      nodeValue_of_none _ _ _ _ ((findBest_eq_none x y _).mpr hne2)]
  · have hne2 : nodeNeighborhood points₂ spacing x y ≠ [] := fun h2 =>
      hne (h2 ▸ hn).eq_nil
    obtain ⟨b1, hb1eq, hb1mem, hb1min⟩ := findBest_spec x y _ hne
    obtain ⟨b2, hb2eq, hb2mem, hb2min⟩ := findBest_spec x y _ hne2
    have hb2in1 : b2 ∈ nodeNeighborhood points₁ spacing x y :=
      hn.mem_iff.mpr hb2mem
    have hd12 : distSq x y b1 = distSq x y b2 :=
      le_antisymm (hb1min b2 hb2in1) (hb2min b1 (hn.mem_iff.mp hb1mem))
    obtain ⟨hv1, hv2, hv3⟩ := hties b1 hb1mem b2 hb2in1 hd12
    rw [nodeValue_of_findBest _ _ _ _ _ _ hb1eq,
      nodeValue_of_findBest _ _ _ _ _ _ hb2eq, hd12, hv1, hv2, hv3]

/-- C4 as the code implements it: resampling is a function of the ordered
    sample list, and permuting the list leaves the grid unchanged provided
    that for every grid node any two samples of its scanned 3×3 bucket
    neighborhood at equal squared distance from the node carry equal values
    (ties are otherwise broken by scan order, which the permutation can
    change). -/
theorem c4_resample_perm (points₁ points₂ : List SamplePoint)
    (xmin ymin spacing : ℚ) (nx ny : ℕ) (hperm : points₁.Perm points₂)
    (hties : ∀ (ix : ℕ), ix < nx → ∀ (iy : ℕ), iy < ny →
      ∀ p ∈ nodeNeighborhood points₁ spacing (xmin + (ix : ℚ) * spacing)
        (ymin + (iy : ℚ) * spacing),
      ∀ q ∈ nodeNeighborhood points₁ spacing (xmin + (ix : ℚ) * spacing)
        (ymin + (iy : ℚ) * spacing),
        distSq (xmin + (ix : ℚ) * spacing) (ymin + (iy : ℚ) * spacing) p =
          distSq (xmin + (ix : ℚ) * spacing) (ymin + (iy : ℚ) * spacing) q →
        p.speed = q.speed ∧ p.vx = q.vx ∧ p.vy = q.vy) :
    resampleGrid points₁ xmin ymin spacing nx ny =
      resampleGrid points₂ xmin ymin spacing nx ny := by
  have hrows : gridRows points₁ xmin ymin spacing nx ny =
      gridRows points₂ xmin ymin spacing nx ny := by
    unfold gridRows
    refine @List.map_congr_left ℕ _ _ _ _ ?_
    intro iy hiy
    refine @List.map_congr_left ℕ _ _ _ _ ?_
    intro ix hix
    exact nodeValue_perm points₁ points₂ spacing _ _ hperm
      (hties ix (List.mem_range.mp hix) iy (List.mem_range.mp hiy))
  unfold resampleGrid
  rw [hrows]

/-- Node evaluation for the tied pair in input order: both samples sit in
    bucket (0, 0) at squared distance 2 from the node (0, 0); the scan keeps
    the first one. -/
theorem nodeValue_tie_first :
    nodeValue [⟨1, 1, 2, 0, 0⟩, ⟨1, -1, 7, 0, 0⟩] 5 0 0 = (2, 0, 0) := by
  norm_num [nodeValue, findBest, findBestAux, nodeNeighborhood, neighborPoints,
    cellPoints, bucketOf, truncQ, distSq, distBound, neg_div, Int.ceil_neg]

/-- Node evaluation for the tied pair in swapped order: now the other sample
    is kept. -/
theorem nodeValue_tie_second :
    nodeValue [⟨1, -1, 7, 0, 0⟩, ⟨1, 1, 2, 0, 0⟩] 5 0 0 = (7, 0, 0) := by
  norm_num [nodeValue, findBest, findBestAux, nodeNeighborhood, neighborPoints,
    cellPoints, bucketOf, truncQ, distSq, distBound, neg_div, Int.ceil_neg]

/-- C4 counterexample: two samples equidistant from the node (0, 0) and
    hashed into the same bucket.  Swapping their order in the input changes
    the resampled grid (first-wins tie-breaking), so resampling is not
    order-independent. -/
theorem c4_counterexample :
    ([(⟨1, 1, 2, 0, 0⟩ : SamplePoint), ⟨1, -1, 7, 0, 0⟩].Perm
      [⟨1, -1, 7, 0, 0⟩, ⟨1, 1, 2, 0, 0⟩]) ∧
    resampleGrid [⟨1, 1, 2, 0, 0⟩, ⟨1, -1, 7, 0, 0⟩] 0 0 5 1 1 ≠
      resampleGrid [⟨1, -1, 7, 0, 0⟩, ⟨1, 1, 2, 0, 0⟩] 0 0 5 1 1 := by
  constructor
  · exact List.Perm.swap _ _ _
  · have h1 : resampleGrid [⟨1, 1, 2, 0, 0⟩, ⟨1, -1, 7, 0, 0⟩] 0 0 5 1 1 =
        ([[2]], [[0]], [[0]]) := by
      norm_num [resampleGrid, gridRows, List.range_succ, nodeValue_tie_first]
    have h2 : resampleGrid [⟨1, -1, 7, 0, 0⟩, ⟨1, 1, 2, 0, 0⟩] 0 0 5 1 1 =
        ([[7]], [[0]], [[0]]) := by
      norm_num [resampleGrid, gridRows, List.range_succ, nodeValue_tie_second]
    rw [h1, h2]
    intro heq
    have := congrArg (fun t => t.1) heq
    norm_num at this

/-- Witness for C4: two samples in distinct buckets (no distance ties in any
    scanned neighborhood); swapping their order leaves the grid unchanged. -/
theorem c4_witness :
    resampleGrid [⟨0, 0, 1, 0, 0⟩, ⟨30, 30, 9, 0, 0⟩] 0 0 5 1 1 =
      resampleGrid [⟨30, 30, 9, 0, 0⟩, ⟨0, 0, 1, 0, 0⟩] 0 0 5 1 1 := by
  refine c4_resample_perm _ _ 0 0 5 1 1 (List.Perm.swap _ _ _) ?_
  intro ix hix iy hiy p hp q hq hd
  have hix0 : ix = 0 := by omega
  have hiy0 : iy = 0 := by omega
  subst hix0
  subst hiy0
  have hp2 := mem_of_mem_nodeNeighborhood _ _ _ _ p hp
  have hq2 := mem_of_mem_nodeNeighborhood _ _ _ _ q hq
  rcases List.mem_cons.mp hp2 with h | h
  · subst h
    rcases List.mem_cons.mp hq2 with h | h
    · subst h
      exact ⟨rfl, rfl, rfl⟩
    · rcases List.mem_cons.mp h with h | h
      · subst h
        exfalso
        norm_num [distSq] at hd
      · simp at h
  · rcases List.mem_cons.mp h with h | h
    · subst h
      rcases List.mem_cons.mp hq2 with h | h
      · subst h
        exfalso
        norm_num [distSq] at hd
      · rcases List.mem_cons.mp h with h | h
        · subst h
          exact ⟨rfl, rfl, rfl⟩
        · simp at h
    · simp at h
